import Mathlib

/-!
Verification of the Listing Lifecycle & Trend Aggregation Engine of the
cars-trends-tool repository: a shallow embedding of
`backend/services/listing_lifecycle_service.py`,
`backend/services/trends_service.py` and `backend/services/cleanup_service.py`
over the data model of `backend/models.py` (with the `first_seen` / `last_seen`
columns added by `backend/migrate_add_lifecycle.py`), followed by theorems
about the embedded operations.

Modelling conventions:
- prices are exact rationals (`ℚ`), listing timestamps are integer seconds,
  snapshot dates are integer day numbers;
- a nullable SQL column is an `Option`;
- a table is a `List` of rows in storage order; a SQLAlchemy `.first()` query
  is `List.find?`, and an in-place mutation of the row returned by such a
  query is `updateFirst`;
- Python's stable `list.sort(key=…, reverse=True)` is `List.insertionSort`
  with the corresponding total preorder (any two stable sorts of the same
  total preorder agree, so this is extensionally faithful);
- Python `round(x, n)` (round half to even) is `pyRound2` / `pyRound1`.
-/

unseal Rat.mul Rat.add Rat.inv Rat.sub

namespace CarsTrends

/-- Propositional equality on `Except` values is decidable componentwise
(needed to evaluate embedded operations on concrete inputs). -/
instance {ε α : Type} [DecidableEq ε] [DecidableEq α] :
    DecidableEq (Except ε α) := fun x y =>
  match x, y with
  | Except.ok a, Except.ok b =>
      if h : a = b then isTrue (by rw [h])
      else isFalse (fun he => by cases he; exact h rfl)
  | Except.error a, Except.error b =>
      if h : a = b then isTrue (by rw [h])
      else isFalse (fun he => by cases he; exact h rfl)
  | Except.ok _, Except.error _ => isFalse (fun he => by cases he)
  | Except.error _, Except.ok _ => isFalse (fun he => by cases he)

/-! ## Generic list helpers -/

/-- Replace the first element satisfying `p` (the row returned by a
`.first()` query) by `f` of it, leaving all other rows unchanged. -/
def updateFirst (p : α → Bool) (f : α → α) : List α → List α
  | [] => []
  | x :: xs => if p x then f x :: xs else x :: updateFirst p f xs

/-- Helper of `dedupFirst`: drop the elements already in `seen`. -/
def dedupFirstAux [DecidableEq α] (seen : List α) : List α → List α
  | [] => []
  | x :: xs =>
      if x ∈ seen then dedupFirstAux seen xs
      else x :: dedupFirstAux (x :: seen) xs

/-- First-occurrence deduplication: the iteration order of a Python `dict` /
`set` built by one pass over a list, and of SQL `GROUP BY` keys in row order. -/
def dedupFirst [DecidableEq α] (l : List α) : List α := dedupFirstAux [] l

/-! ## Python numeric helpers -/

/-- Python truthiness on a nullable numeric: `x if x else None` maps both
`None` and `0` to `None`. -/
def floatOrNone (x : Option ℚ) : Option ℚ :=
  match x with
  | none => none
  | some v => if v = 0 then none else some v

/-- Round to the nearest integer, ties to even (Python `round`). -/
def roundHalfEven (x : ℚ) : ℤ :=
  let f := Rat.floor x
  let r := x - f
  if r < 1 / 2 then f
  else if 1 / 2 < r then f + 1
  else if 2 ∣ f then f else f + 1

/-- Python `round(x, 2)`. -/
def pyRound2 (x : ℚ) : ℚ := (roundHalfEven (x * 100) : ℚ) / 100

/-- Python `round(x, 1)`. -/
def pyRound1 (x : ℚ) : ℚ := (roundHalfEven (x * 10) : ℚ) / 10

/-! ## Data model (`backend/models.py`) -/

/-- A row of the `listings` table. `first_seen` / `last_seen` are the
lifecycle columns added by `migrate_add_lifecycle.py`. The surrogate primary
key is kept; `location` does not exist in `models.py` and the textual columns
are `Option` to match the row states the services actually construct. -/
structure Listing where
  id : Nat
  platform : Option String := none
  title : Option String := none
  url : String
  price : Option ℚ := none
  make : Option String := none
  model : Option String := none
  year : Option Int := none
  mileage : Option Int := none
  views : Option Int := none
  likes : Option Int := none
  comments : Option Int := none
  scraped_at : Int := 0
  first_seen : Int := 0
  last_seen : Int := 0
  deriving Repr, DecidableEq

/-- The `listing_data` dict passed to `upsert_listing`.  An outer `none`
means the key is absent from the dict; `some none` is a key present with
value `None`.  The distinction matters only for the keys the update branch
tests with `'key' in listing_data` (price, title, views, likes, comments);
the remaining keys are only read at creation, where an absent key and a
`None` value coincide. -/
structure RawRecord where
  url : Option String := none
  platform : Option String := none
  title : Option (Option String) := none
  price : Option (Option ℚ) := none
  make : Option String := none
  model : Option String := none
  year : Option Int := none
  mileage : Option Int := none
  views : Option (Option Int) := none
  likes : Option (Option Int) := none
  comments : Option (Option Int) := none
  deriving Repr, DecidableEq

/-! ## `upsert_listing` (`backend/services/listing_lifecycle_service.py`) -/

/-- The dedup-key lookup used by every query of the lifecycle service:
the row whose `url` equals the given URL. -/
def listingUrlEq (url : String) (l : Listing) : Bool := l.url == url

/-- The update branch of `upsert_listing`: refresh `last_seen` and
`scraped_at`; overwrite `price` when its key is present and the value
differs; overwrite each engagement counter and `title` when its key is
present. -/
def applyUpdate (existing : Listing) (rec : RawRecord) (now : Int) : Listing :=
  let e0 := { existing with last_seen := now, scraped_at := now }
  let e1 := match rec.price with
    | some p => if p ≠ e0.price then { e0 with price := p } else e0
    | none => e0
  let e2 := match rec.views with
    | some v => { e1 with views := v }
    | none => e1
  let e3 := match rec.likes with
    | some v => { e2 with likes := v }
    | none => e2
  let e4 := match rec.comments with
    | some v => { e3 with comments := v }
    | none => e3
  match rec.title with
    | some t => { e4 with title := t }
    | none => e4

/-- The insert branch of `upsert_listing`: a fresh row with
`first_seen = last_seen = scraped_at = now` and the record's fields copied
(absent keys become NULL columns). -/
def newListing (rec : RawRecord) (url : String) (now : Int) (freshId : Nat) :
    Listing :=
  { id := freshId
    platform := rec.platform
    title := rec.title.join
    url := url
    price := rec.price.join
    make := rec.make
    model := rec.model
    year := rec.year
    mileage := rec.mileage
    views := rec.views.join
    likes := rec.likes.join
    comments := rec.comments.join
    scraped_at := now
    first_seen := now
    last_seen := now }

/-- The upsert operation over the listings table.  `race` models the outcome of
the store-level unique constraint on `url` at insert time: `some winner`
means a concurrent writer committed the row `winner` between our existence
check and our insert, so the insert raises `IntegrityError`; the handler
rolls back, re-queries by URL and, when a row is found, retries as an update
of `last_seen` only; when none is found it re-raises.  Returns the committed
table and the listing returned to the caller. -/
def upsert_listing (db : List Listing) (rec : RawRecord) (now : Int)
    (freshId : Nat) (race : Option Listing) :
    Except String (List Listing × Listing) :=
  match rec.url with
  | none => Except.error "ValueError: URL is required for upsert_listing"
  | some url =>
    if url = "" then Except.error "ValueError: URL is required for upsert_listing"
    else
      match db.find? (listingUrlEq url) with
      | some existing =>
          Except.ok (updateFirst (listingUrlEq url) (fun l => applyUpdate l rec now) db,
                     applyUpdate existing rec now)
      | none =>
          match race with
          | none =>
              let nl := newListing rec url now freshId
              Except.ok (db ++ [nl], nl)
          | some winner =>
              let dbr := db ++ [winner]
              match dbr.find? (listingUrlEq url) with
              | some existing2 =>
                  Except.ok (updateFirst (listingUrlEq url)
                               (fun l => { l with last_seen := now }) dbr,
                             { existing2 with last_seen := now })
              | none => Except.error "IntegrityError"

/-- One call of a sequential upsert run. -/
structure UpsertCall where
  record : RawRecord
  now : Int
  freshId : Nat
  deriving Repr

/-- Run a sequence of `upsert_listing` calls with no concurrent writer
(`race := none`), threading the table; a failed call leaves the table as the
rollback left it. -/
def runUpserts (db : List Listing) : List UpsertCall → List Listing
  | [] => db
  | c :: cs =>
      match upsert_listing db c.record c.now c.freshId none with
      | Except.ok (db', _) => runUpserts db' cs
      | Except.error _ => runUpserts db cs

/-! ## `DailySnapshot` and `create_daily_snapshot`
(`backend/models.py`, `backend/services/trends_service.py`) -/

/-- A row of the `daily_snapshots` table.  `date` is an integer day number.
The surrogate `id` and `created_at` columns are not modelled: no claim and no
aggregate computation reads them. -/
structure DailySnapshot where
  date : Int
  make : String
  model : String
  avg_price : Option ℚ := none
  min_price : Option ℚ := none
  max_price : Option ℚ := none
  listing_count : Nat := 0
  craigslist_count : Nat := 0
  mercadolibre_count : Nat := 0
  facebook_count : Nat := 0
  deriving Repr, DecidableEq

/-- The rows of one `(make, model)` GROUP BY group. -/
def groupListings (ls : List Listing) (mk md : String) : List Listing :=
  ls.filter (fun l => l.make == some mk && l.model == some md)

/-- The non-null prices of a group: SQL `avg` / `min` / `max` skip NULLs. -/
def groupPrices (ls : List Listing) (mk md : String) : List ℚ :=
  (groupListings ls mk md).filterMap (fun l => l.price)

/-- SQL `avg` over a column: NULL on the empty set, else sum / count. -/
def sqlAvg (ps : List ℚ) : Option ℚ :=
  if ps = [] then none else some (ps.sum / ps.length)

/-- The snapshot row `create_daily_snapshot` computes for one group: the
GROUP BY aggregates, with `float(x) if x else None` applied to the three
price statistics and `x or 0` to the platform counts. -/
def aggRow (ls : List Listing) (d : Int) (mk md : String) : DailySnapshot :=
  let g := groupListings ls mk md
  let ps := groupPrices ls mk md
  { date := d
    make := mk
    model := md
    avg_price := floatOrNone (sqlAvg ps)
    min_price := floatOrNone ps.min?
    max_price := floatOrNone ps.max?
    listing_count := g.length
    craigslist_count := g.countP (fun l => l.platform == some "craigslist")
    mercadolibre_count := g.countP (fun l => l.platform == some "mercadolibre")
    facebook_count := g.countP (fun l => l.platform == some "facebook") }

/-- The `(date, make, model)` lookup used to find an existing snapshot. -/
def snapKey (d : Int) (mk md : String) (s : DailySnapshot) : Bool :=
  s.date == d && s.make == mk && s.model == md

/-- The composite key of the `unique_daily_snapshot` constraint. -/
def keyOf (s : DailySnapshot) : Int × String × String := (s.date, s.make, s.model)

/-- The `unique_daily_snapshot` store invariant: no two rows share
`(date, make, model)`. -/
def uniqKeys (snaps : List DailySnapshot) : Prop := (snaps.map keyOf).Nodup

instance (snaps : List DailySnapshot) : Decidable (uniqKeys snaps) :=
  inferInstanceAs (Decidable (snaps.map keyOf).Nodup)

/-- Overwrite the aggregate fields of an existing snapshot row in place. -/
def overwriteAgg (s row : DailySnapshot) : DailySnapshot :=
  { s with listing_count := row.listing_count
           avg_price := row.avg_price
           min_price := row.min_price
           max_price := row.max_price
           craigslist_count := row.craigslist_count
           mercadolibre_count := row.mercadolibre_count
           facebook_count := row.facebook_count }

/-- The summary dict returned by `create_daily_snapshot`. -/
structure SnapshotResult where
  date : Int
  snapshots_created : Nat
  snapshots_updated : Nat
  total_cars : Nat
  deriving Repr, DecidableEq

/-- The distinct `(make, model)` pairs of the GROUP BY query, both fields
non-null, in row order. -/
def listingPairs (ls : List Listing) : List (String × String) :=
  dedupFirst (ls.filterMap (fun l =>
    match l.make, l.model with
    | some mk, some md => some (mk, md)
    | _, _ => none))

/-- One iteration of the per-group loop of `create_daily_snapshot`:
update the existing `(date, make, model)` row in place, or append a new one. -/
def snapshotStep (ls : List Listing) (d : Int)
    (acc : List DailySnapshot × Nat × Nat) (p : String × String) :
    List DailySnapshot × Nat × Nat :=
  let row := aggRow ls d p.1 p.2
  match acc.1.find? (snapKey d p.1 p.2) with
  | some _ =>
      (updateFirst (snapKey d p.1 p.2) (fun s => overwriteAgg s row) acc.1,
       acc.2.1, acc.2.2 + 1)
  | none => (acc.1 ++ [row], acc.2.1 + 1, acc.2.2)

/-- The snapshot generator: one snapshot row per `(make, model)` group of the
current listings, created or updated in place for the given date. -/
def create_daily_snapshot (ls : List Listing) (snaps : List DailySnapshot)
    (d : Int) : List DailySnapshot × SnapshotResult :=
  let pairs := listingPairs ls
  let res := pairs.foldl (snapshotStep ls d) (snaps, 0, 0)
  (res.1, { date := d
            snapshots_created := res.2.1
            snapshots_updated := res.2.2
            total_cars := pairs.length })

/-! ## `get_trending_cars` (`backend/services/trends_service.py`) -/

/-- One entry of the `get_trending_cars` result. -/
structure TrendingEntry where
  make : String
  model : String
  old_price : ℚ
  new_price : ℚ
  change : ℚ
  change_pct : ℚ
  direction : String
  listing_count : Nat
  deriving Repr, DecidableEq

/-- The dict appended for one qualifying pair: `change` and `change_pct` are
rounded to two decimals, `direction` is computed from the unrounded change. -/
def trendingEntry (ts : DailySnapshot) (op np : ℚ) : TrendingEntry :=
  { make := ts.make
    model := ts.model
    old_price := op
    new_price := np
    change := pyRound2 (np - op)
    change_pct := pyRound2 ((np - op) / op * 100)
    direction := if 0 < np - op then "up" else "down"
    listing_count := ts.listing_count }

/-- The total preorder of the trending sort: descending absolute rounded
change (the stable reverse sort keyed on the absolute change). -/
def trendingDescBy (a b : TrendingEntry) : Prop := |b.change| ≤ |a.change|

instance : DecidableRel trendingDescBy :=
  fun a b => inferInstanceAs (Decidable (|b.change| ≤ |a.change|))

instance : IsTotal TrendingEntry trendingDescBy :=
  ⟨fun a b => le_total |b.change| |a.change|⟩

instance : IsTrans TrendingEntry trendingDescBy :=
  ⟨fun _ _ _ hab hbc => le_trans hbc hab⟩

/-- The unsorted trending list built by the loop of `get_trending_cars`:
for each snapshot of `today` with non-null `avg_price`, the first snapshot of
the same pair dated exactly `today - days` with non-null `avg_price`; the
truthiness test `old_snap.avg_price and today_snap.avg_price` then also drops
zero averages. -/
def trendingAll (snaps : List DailySnapshot) (today : Int) (days : Nat) :
    List TrendingEntry :=
  let comparison_date := today - days
  let today_snapshots := snaps.filter (fun s => s.date == today && s.avg_price.isSome)
  today_snapshots.filterMap (fun ts =>
    match snaps.find? (fun s => s.make == ts.make && s.model == ts.model &&
        s.date == comparison_date && s.avg_price.isSome) with
    | none => none
    | some os =>
        match os.avg_price, ts.avg_price with
        | some op, some np =>
            if op = 0 || np = 0 then none else some (trendingEntry ts op np)
        | _, _ => none)

/-- The trending query: the trending list sorted by descending absolute
change (stable) and truncated to `limit`. -/
def get_trending_cars (snaps : List DailySnapshot) (today : Int)
    (days limit : Nat) : List TrendingEntry :=
  (List.insertionSort trendingDescBy (trendingAll snaps today days)).take limit

/-! ## `get_market_overview` (`backend/services/trends_service.py`) -/

/-- One entry of the `most_listed` list of the market overview. -/
structure MostListedEntry where
  make : String
  model : String
  avg_listings : ℚ
  days_present : Nat
  deriving Repr, DecidableEq

/-- The overview dict.  `start_date` / `end_date` are the `date_range`. -/
structure MarketOverview where
  total_unique_cars : Nat
  avg_market_price : Option ℚ
  total_snapshots : Nat
  start_date : Int
  end_date : Int
  most_listed : List MostListedEntry
  deriving Repr, DecidableEq

/-- The total preorder of the most-listed sort: descending average daily
listing count (the stable reverse sort keyed on that average). -/
def mostListedDescBy (a b : MostListedEntry) : Prop :=
  b.avg_listings ≤ a.avg_listings

instance : DecidableRel mostListedDescBy :=
  fun a b => inferInstanceAs (Decidable (b.avg_listings ≤ a.avg_listings))

instance : IsTotal MostListedEntry mostListedDescBy :=
  ⟨fun a b => le_total b.avg_listings a.avg_listings⟩

instance : IsTrans MostListedEntry mostListedDescBy :=
  ⟨fun _ _ _ hab hbc => le_trans hbc hab⟩

/-- The `(make, model)` pair of a snapshot row. -/
def pairOf (s : DailySnapshot) : String × String := (s.make, s.model)

/-- Total listing count of a pair over the filtered snapshots (the running
sum the loop accumulates per dict key). -/
def pairTotalListings (f : List DailySnapshot) (p : String × String) : Nat :=
  ((f.filter (fun s => pairOf s == p)).map (fun s => s.listing_count)).sum

/-- Number of distinct dates on which the pair has a snapshot among the
filtered snapshots (the size of the per-key date set). -/
def pairDaysPresent (f : List DailySnapshot) (p : String × String) : Nat :=
  (dedupFirst ((f.filter (fun s => pairOf s == p)).map (fun s => s.date))).length

/-- The `most_listed` entry computed for one pair: total listing-count-days
divided by distinct days present, rounded to one decimal. -/
def mostListedEntryFor (f : List DailySnapshot) (p : String × String) :
    MostListedEntry :=
  let total := pairTotalListings f p
  let dp := pairDaysPresent f p
  { make := p.1
    model := p.2
    avg_listings := if 0 < dp then pyRound1 ((total : ℚ) / dp) else 0
    days_present := dp }

/-- The snapshots whose `date` lies in `[today - days, today]`. -/
def snapsInWindow (snaps : List DailySnapshot) (today : Int)
    (days : Nat) : List DailySnapshot :=
  snaps.filter (fun x => today - days ≤ x.date && x.date ≤ today)

/-- The averages the overview keeps: the non-null, non-zero ones (the
comprehension filters on truthiness of each avg price). -/
def overviewPrices (f : List DailySnapshot) : List ℚ :=
  f.filterMap (fun s => floatOrNone s.avg_price)

/-- The distinct pairs of the filtered snapshots, in first-occurrence
(dict-insertion) order. -/
def overviewPairs (f : List DailySnapshot) : List (String × String) :=
  dedupFirst (f.map pairOf)

/-- The market overview: statistics over the snapshots dated within
`[today - days, today]`. -/
def get_market_overview (snaps : List DailySnapshot) (today : Int)
    (days : Nat) : MarketOverview :=
  let start_date := today - days
  let end_date := today
  let f := snapsInWindow snaps today days
  if f = [] then
    { total_unique_cars := 0
      avg_market_price := none
      total_snapshots := 0
      start_date := start_date
      end_date := end_date
      most_listed := [] }
  else
    let prices := overviewPrices f
    let avg_price := if prices = [] then none
                     else some (prices.sum / prices.length)
    { total_unique_cars := (overviewPairs f).length
      avg_market_price :=
        match avg_price with
        | none => none
        | some v => if v = 0 then none else some (pyRound2 v)
      total_snapshots := f.length
      start_date := start_date
      end_date := end_date
      most_listed :=
        (List.insertionSort mostListedDescBy
          ((overviewPairs f).map (mostListedEntryFor f))).take 10 }

/-! ## Cleanup (`backend/services/cleanup_service.py`)

The cleanup functions run inside one store transaction: count the doomed
rows, delete them, commit; any exception triggers `rollback` and re-raises.
`DbStep` names the store calls that can fail; a `failAt` of `some step`
injects a store failure at that call.  Each function returns the result (or
the propagated error) together with the committed table after the call. -/

inductive DbStep
  | countQ
  | deleteQ
  | commitQ
  deriving Repr, DecidableEq

/-- The statistics dict returned by a cleanup function; the early return for
zero doomed rows carries no `remaining_count`. -/
structure CleanupResult where
  deleted_count : Nat
  remaining_count : Option Nat := none
  retention_days : Nat
  deriving Repr, DecidableEq

/-- The listings cleanup: hard-delete the listings whose `last_seen` is
strictly before `now - retention_days` (in seconds). -/
def cleanup_old_listings (db : List Listing) (now : Int) (retention_days : Nat)
    (failAt : Option DbStep) : Except String CleanupResult × List Listing :=
  let cutoff := now - retention_days * 86400
  if failAt = some DbStep.countQ then
    (Except.error "PersistenceError: count failed", db)
  else
    let to_delete := db.countP (fun l => decide (l.last_seen < cutoff))
    if to_delete = 0 then
      (Except.ok { deleted_count := 0, retention_days := retention_days }, db)
    else if failAt = some DbStep.deleteQ then
      (Except.error "PersistenceError: delete failed", db)
    else if failAt = some DbStep.commitQ then
      (Except.error "PersistenceError: commit failed", db)
    else
      let db' := db.filter (fun l => !decide (l.last_seen < cutoff))
      (Except.ok { deleted_count := to_delete
                   remaining_count := some db'.length
                   retention_days := retention_days }, db')

/-- The snapshots cleanup: hard-delete the snapshots whose `date` is
strictly before the day of `now - retention_days` (dates are day numbers, so
`.date()` of the cutoff instant is its floor day). -/
def cleanup_old_snapshots (snaps : List DailySnapshot) (now : Int)
    (retention_days : Nat) (failAt : Option DbStep) :
    Except String CleanupResult × List DailySnapshot :=
  let cutoffDay := Int.fdiv (now - retention_days * 86400) 86400
  if failAt = some DbStep.countQ then
    (Except.error "PersistenceError: count failed", snaps)
  else
    let to_delete := snaps.countP (fun s => decide (s.date < cutoffDay))
    if to_delete = 0 then
      (Except.ok { deleted_count := 0, retention_days := retention_days }, snaps)
    else if failAt = some DbStep.deleteQ then
      (Except.error "PersistenceError: delete failed", snaps)
    else if failAt = some DbStep.commitQ then
      (Except.error "PersistenceError: commit failed", snaps)
    else
      let snaps' := snaps.filter (fun s => !decide (s.date < cutoffDay))
      (Except.ok { deleted_count := to_delete
                   remaining_count := some snaps'.length
                   retention_days := retention_days }, snaps')

/-! ## Lemmas about the generic helpers -/

theorem find?_updateFirst_self {p : α → Bool} {f : α → α} {l : List α} {x : α}
    (h : l.find? p = some x) (hf : p (f x) = true) :
    (updateFirst p f l).find? p = some (f x) := by
  induction l with
  | nil => simp at h
  | cons a l ih =>
      by_cases ha : p a
      · rw [List.find?_cons_of_pos _ ha] at h
        cases h
        simp [updateFirst, ha, List.find?_cons_of_pos _ hf]
      · rw [List.find?_cons_of_neg _ (by simpa using ha)] at h
        simp [updateFirst, ha, List.find?_cons_of_neg, ih h]

theorem find?_updateFirst_of_disjoint {p q : α → Bool} {f : α → α} {l : List α}
    (hpq : ∀ x, p x = true → q x = false)
    (hq : ∀ x, q x = true → p (f x) = false) :
    (updateFirst q f l).find? p = l.find? p := by
  induction l with
  | nil => rfl
  | cons a l ih =>
      by_cases hqa : q a
      · have hpa : ¬ p a = true := by
          intro hpa
          rw [hpq a hpa] at hqa
          exact Bool.false_ne_true hqa
        simp only [updateFirst, if_pos hqa]
        rw [List.find?_cons_of_neg _ (by simpa using hq a hqa),
            List.find?_cons_of_neg _ hpa]
      · simp only [updateFirst, if_neg hqa]
        by_cases hpa : p a
        · rw [List.find?_cons_of_pos _ hpa, List.find?_cons_of_pos _ hpa]
        · rw [List.find?_cons_of_neg _ hpa, List.find?_cons_of_neg _ hpa]
          exact ih

theorem updateFirst_eq_of_fix {p : α → Bool} {f : α → α} {l : List α} {x : α}
    (h : l.find? p = some x) (hfx : f x = x) : updateFirst p f l = l := by
  induction l with
  | nil => simp at h
  | cons a l ih =>
      by_cases ha : p a
      · rw [List.find?_cons_of_pos _ ha] at h
        cases h
        simp [updateFirst, ha, hfx]
      · rw [List.find?_cons_of_neg _ (by simpa using ha)] at h
        simp [updateFirst, ha, ih h]

theorem map_updateFirst {p : α → Bool} {f : α → α} {g : α → β}
    (hg : ∀ x, g (f x) = g x) (l : List α) :
    (updateFirst p f l).map g = l.map g := by
  induction l with
  | nil => rfl
  | cons a l ih =>
      by_cases ha : p a
      · simp [updateFirst, ha, hg]
      · simp [updateFirst, ha, ih]

theorem mem_updateFirst {p : α → Bool} {f : α → α} {l : List α} {x : α}
    (h : x ∈ updateFirst p f l) :
    x ∈ l ∨ ∃ y, l.find? p = some y ∧ x = f y := by
  induction l with
  | nil => simp [updateFirst] at h
  | cons a l ih =>
      by_cases ha : p a
      · simp only [updateFirst, if_pos ha, List.mem_cons] at h
        rcases h with h | h
        · exact Or.inr ⟨a, List.find?_cons_of_pos _ ha, h⟩
        · exact Or.inl (List.mem_cons_of_mem a h)
      · simp only [updateFirst, if_neg ha, List.mem_cons] at h
        rcases h with h | h
        · exact Or.inl (h ▸ List.mem_cons_self a l)
        · rcases ih h with h' | ⟨y, hy, hxy⟩
          · exact Or.inl (List.mem_cons_of_mem a h')
          · exact Or.inr ⟨y, by rw [List.find?_cons_of_neg _ ha]; exact hy, hxy⟩

theorem mem_dedupFirstAux [DecidableEq α] {seen l : List α} {x : α} :
    x ∈ dedupFirstAux seen l ↔ x ∈ l ∧ x ∉ seen := by
  induction l generalizing seen with
  | nil => simp [dedupFirstAux]
  | cons a l ih =>
      by_cases ha : a ∈ seen
      · simp only [dedupFirstAux, if_pos ha, ih, List.mem_cons]
        constructor
        · rintro ⟨hx, hs⟩
          exact ⟨Or.inr hx, hs⟩
        · rintro ⟨hx | hx, hs⟩
          · exact absurd (hx ▸ ha) hs
          · exact ⟨hx, hs⟩
      · simp only [dedupFirstAux, if_neg ha, List.mem_cons, ih, List.mem_cons]
        constructor
        · rintro (rfl | ⟨hx, hs⟩)
          · exact ⟨Or.inl rfl, ha⟩
          · exact ⟨Or.inr hx, fun hmem => hs (Or.inr hmem)⟩
        · rintro ⟨rfl | hx, hs⟩
          · exact Or.inl rfl
          · by_cases hxa : x = a
            · exact Or.inl hxa
            · exact Or.inr ⟨hx, fun hmem => by
                rcases hmem with hmem | hmem
                · exact hxa hmem
                · exact hs hmem⟩

theorem mem_dedupFirst [DecidableEq α] {l : List α} {x : α} :
    x ∈ dedupFirst l ↔ x ∈ l := by
  simp [dedupFirst, mem_dedupFirstAux]

theorem nodup_dedupFirstAux [DecidableEq α] (seen l : List α) :
    (dedupFirstAux seen l).Nodup := by
  induction l generalizing seen with
  | nil => exact List.nodup_nil
  | cons a l ih =>
      by_cases ha : a ∈ seen
      · simpa [dedupFirstAux, if_pos ha] using ih seen
      · simp only [dedupFirstAux, if_neg ha]
        refine List.Nodup.cons (fun hmem => ?_) (ih (a :: seen))
        exact (mem_dedupFirstAux.1 hmem).2 (List.mem_cons_self a seen)

theorem nodup_dedupFirst [DecidableEq α] (l : List α) : (dedupFirst l).Nodup :=
  nodup_dedupFirstAux [] l

theorem dedupFirst_perm_dedup [DecidableEq α] (l : List α) :
    List.Perm (dedupFirst l) l.dedup := by
  rw [List.perm_ext_iff_of_nodup (nodup_dedupFirst l) (List.nodup_dedup l)]
  intro a
  rw [mem_dedupFirst, List.mem_dedup]

theorem length_dedupFirst [DecidableEq α] (l : List α) :
    (dedupFirst l).length = l.dedup.length :=
  (dedupFirst_perm_dedup l).length_eq

/-! ## Lemmas about the stable sort-and-truncate pattern -/

theorem sortTake_length (r : α → α → Prop) [DecidableRel r] (l : List α) (n : ℕ) :
    ((List.insertionSort r l).take n).length ≤ n :=
  List.length_take_le n _

theorem sortTake_sorted (r : α → α → Prop) [DecidableRel r] [IsTotal α r]
    [IsTrans α r] (l : List α) (n : ℕ) :
    List.Sorted r ((List.insertionSort r l).take n) :=
  List.Pairwise.sublist (List.take_sublist n _) (List.sorted_insertionSort r l)

theorem sortTake_subset {r : α → α → Prop} [DecidableRel r] {l : List α} {n : ℕ}
    {x : α} (h : x ∈ (List.insertionSort r l).take n) : x ∈ l :=
  (List.mem_insertionSort r).1 (List.mem_of_mem_take h)

theorem sortTake_complete {r : α → α → Prop} [DecidableRel r] [IsTotal α r]
    [IsTrans α r] {l : List α} {n : ℕ} {x : α} (hx : x ∈ l) :
    x ∈ (List.insertionSort r l).take n ∨
      (((List.insertionSort r l).take n).length = n ∧
        ∀ y ∈ (List.insertionSort r l).take n, r y x) := by
  have hmem : x ∈ List.insertionSort r l := (List.mem_insertionSort r).2 hx
  rw [← List.take_append_drop n (List.insertionSort r l), List.mem_append] at hmem
  rcases hmem with hmem | hmem
  · exact Or.inl hmem
  · refine Or.inr ⟨?_, fun y hy => ?_⟩
    · have hlt : n < (List.insertionSort r l).length := by
        by_contra hle
        rw [List.drop_eq_nil_of_le (Nat.le_of_not_lt hle)] at hmem
        simp at hmem
      rw [List.length_take]
      exact Nat.min_eq_left (Nat.le_of_lt hlt)
    · exact (List.sorted_insertionSort r l).rel_of_mem_take_of_mem_drop hy hmem

/-! ## Snapshot generation: fold invariants -/

/-- The tuple of aggregate (non-key) fields of a snapshot row. -/
def aggOf (s : DailySnapshot) :
    Option ℚ × Option ℚ × Option ℚ × Nat × Nat × Nat × Nat :=
  (s.avg_price, s.min_price, s.max_price, s.listing_count,
   s.craigslist_count, s.mercadolibre_count, s.facebook_count)

theorem keyOf_overwriteAgg (s row : DailySnapshot) :
    keyOf (overwriteAgg s row) = keyOf s := rfl

theorem aggOf_overwriteAgg (s row : DailySnapshot) :
    aggOf (overwriteAgg s row) = aggOf row := rfl

theorem snapKey_overwriteAgg (d : Int) (mk md : String) (s row : DailySnapshot) :
    snapKey d mk md (overwriteAgg s row) = snapKey d mk md s := rfl

theorem overwriteAgg_eq_self {s row : DailySnapshot}
    (h : aggOf s = aggOf row) : overwriteAgg s row = s := by
  cases s
  cases row
  simp only [aggOf, Prod.mk.injEq] at h
  obtain ⟨h1, h2, h3, h4, h5, h6, h7⟩ := h
  simp [overwriteAgg, h1, h2, h3, h4, h5, h6, h7]

theorem snapKey_eq_true_iff {d : Int} {mk md : String} {s : DailySnapshot} :
    snapKey d mk md s = true ↔ s.date = d ∧ s.make = mk ∧ s.model = md := by
  simp [snapKey, and_assoc]

theorem keyOf_eq_of_snapKey {d : Int} {mk md : String} {s : DailySnapshot}
    (h : snapKey d mk md s = true) : keyOf s = (d, mk, md) := by
  obtain ⟨h1, h2, h3⟩ := snapKey_eq_true_iff.1 h
  simp [keyOf, h1, h2, h3]

theorem snapKey_aggRow (ls : List Listing) (d : Int) (mk md : String) :
    snapKey d mk md (aggRow ls d mk md) = true := by
  simp [snapKey, aggRow]

/-- After a snapshot run, the pair `p` has a stored row for date `d` whose
aggregate fields are the freshly computed aggregates. -/
def rowOK (ls : List Listing) (d : Int) (snaps : List DailySnapshot)
    (p : String × String) : Prop :=
  ∃ s, snaps.find? (snapKey d p.1 p.2) = some s ∧
    aggOf s = aggOf (aggRow ls d p.1 p.2)

theorem snapshotStep_uniq (ls : List Listing) (d : Int)
    (acc : List DailySnapshot × Nat × Nat) (p : String × String)
    (hu : uniqKeys acc.1) : uniqKeys (snapshotStep ls d acc p).1 := by
  unfold snapshotStep
  cases hfind : acc.1.find? (snapKey d p.1 p.2) with
  | some s =>
      simp only [hfind]
      unfold uniqKeys
      rw [map_updateFirst (fun x => keyOf_overwriteAgg x _)]
      exact hu
  | none =>
      simp only [hfind]
      unfold uniqKeys
      rw [List.map_append, List.nodup_append]
      refine ⟨hu, List.nodup_singleton _, ?_⟩
      intro k hk hk'
      simp only [List.map_cons, List.map_nil, List.mem_singleton] at hk'
      rcases List.mem_map.1 hk with ⟨s, hs, rfl⟩
      have hns := List.find?_eq_none.1 hfind s hs
      apply hns
      rw [snapKey_eq_true_iff]
      have hrow : keyOf (aggRow ls d p.1 p.2) = (d, p.1, p.2) := rfl
      rw [hrow] at hk'
      simp only [keyOf, Prod.mk.injEq] at hk'
      exact ⟨hk'.1, hk'.2.1, hk'.2.2⟩

theorem snapshotStep_rowOK_self (ls : List Listing) (d : Int)
    (acc : List DailySnapshot × Nat × Nat) (p : String × String) :
    rowOK ls d (snapshotStep ls d acc p).1 p := by
  unfold snapshotStep
  cases hfind : acc.1.find? (snapKey d p.1 p.2) with
  | some s =>
      simp only [hfind]
      refine ⟨overwriteAgg s (aggRow ls d p.1 p.2), ?_, aggOf_overwriteAgg _ _⟩
      apply find?_updateFirst_self hfind
      rw [snapKey_overwriteAgg]
      exact List.find?_some hfind
  | none =>
      simp only [hfind]
      refine ⟨aggRow ls d p.1 p.2, ?_, rfl⟩
      rw [List.find?_append, hfind]
      simp [List.find?_cons_of_pos _ (snapKey_aggRow ls d p.1 p.2)]

theorem snapshotStep_rowOK_other (ls : List Listing) (d : Int)
    (acc : List DailySnapshot × Nat × Nat) (p q : String × String)
    (hne : q ≠ p) (h : rowOK ls d acc.1 q) :
    rowOK ls d (snapshotStep ls d acc p).1 q := by
  obtain ⟨s, hs, hagg⟩ := h
  have hdisj : ∀ x, snapKey d q.1 q.2 x = true → snapKey d p.1 p.2 x = false := by
    intro x hx
    cases hb : snapKey d p.1 p.2 x
    · rfl
    · exfalso
      have h1 := keyOf_eq_of_snapKey hx
      have h2 := keyOf_eq_of_snapKey hb
      rw [h1] at h2
      simp only [Prod.mk.injEq, true_and] at h2
      exact hne (Prod.ext h2.1 h2.2)
  have hdisj2 : ∀ x, snapKey d p.1 p.2 x = true → snapKey d q.1 q.2 x = false := by
    intro x hx
    cases hb : snapKey d q.1 q.2 x
    · rfl
    · exfalso
      have h1 := keyOf_eq_of_snapKey hx
      have h2 := keyOf_eq_of_snapKey hb
      rw [h1] at h2
      simp only [Prod.mk.injEq, true_and] at h2
      exact hne (Prod.ext h2.1.symm h2.2.symm)
  unfold snapshotStep
  cases hfind : acc.1.find? (snapKey d p.1 p.2) with
  | some s0 =>
      simp only [hfind]
      refine ⟨s, ?_, hagg⟩
      rw [find?_updateFirst_of_disjoint hdisj (fun x hx => by
        rw [snapKey_overwriteAgg]
        exact hdisj2 x hx)]
      exact hs
  | none =>
      simp only [hfind]
      refine ⟨s, ?_, hagg⟩
      rw [List.find?_append, hs]
      rfl

theorem snapshot_foldl_uniq (ls : List Listing) (d : Int) :
    ∀ (ps : List (String × String)) (acc : List DailySnapshot × Nat × Nat),
      uniqKeys acc.1 → uniqKeys (ps.foldl (snapshotStep ls d) acc).1
  | [], _, hu => hu
  | p :: ps, acc, hu => by
      rw [List.foldl_cons]
      exact snapshot_foldl_uniq ls d ps _ (snapshotStep_uniq ls d acc p hu)

theorem snapshot_foldl_rows (ls : List Listing) (d : Int) :
    ∀ (ps : List (String × String)) (acc : List DailySnapshot × Nat × Nat)
      (Q : String × String → Prop),
      ps.Nodup → (∀ p ∈ ps, ¬ Q p) →
      (∀ p, Q p → rowOK ls d acc.1 p) →
      ∀ p, (Q p ∨ p ∈ ps) → rowOK ls d (ps.foldl (snapshotStep ls d) acc).1 p
  | [], acc, Q, _, _, hQ => by
      intro p hp
      rcases hp with hp | hp
      · exact hQ p hp
      · simp at hp
  | p :: ps, acc, Q, hnd, hdisj, hQ => by
      rw [List.foldl_cons]
      have hpnotin : p ∉ ps := (List.nodup_cons.1 hnd).1
      have hnQp : ¬ Q p := hdisj p (List.mem_cons_self p ps)
      have ih := snapshot_foldl_rows ls d ps (snapshotStep ls d acc p)
        (fun q => Q q ∨ q = p)
        (List.nodup_cons.1 hnd).2
        (fun q hq => by
          rintro (hQq | rfl)
          · exact hdisj q (List.mem_cons_of_mem p hq) hQq
          · exact hpnotin hq)
        (fun q hq => by
          rcases hq with hQq | rfl
          · exact snapshotStep_rowOK_other ls d acc p q
              (fun hqp => hnQp (hqp ▸ hQq)) (hQ q hQq)
          · exact snapshotStep_rowOK_self ls d acc q)
      intro q hq
      apply ih q
      rcases hq with hQq | hq
      · exact Or.inl (Or.inl hQq)
      · rcases List.mem_cons.1 hq with rfl | hq
        · exact Or.inl (Or.inr rfl)
        · exact Or.inr hq

theorem snapshot_foldl_noop (ls : List Listing) (d : Int) :
    ∀ (ps : List (String × String)) (snaps : List DailySnapshot) (c u : Nat),
      (∀ p ∈ ps, rowOK ls d snaps p) →
      ps.foldl (snapshotStep ls d) (snaps, c, u) = (snaps, c, u + ps.length)
  | [], snaps, c, u, _ => by simp
  | p :: ps, snaps, c, u, h => by
      obtain ⟨s, hs, hagg⟩ := h p (List.mem_cons_self p ps)
      rw [List.foldl_cons]
      have hstep : snapshotStep ls d (snaps, c, u) p = (snaps, c, u + 1) := by
        unfold snapshotStep
        simp only [hs]
        rw [updateFirst_eq_of_fix (f := fun s => overwriteAgg s (aggRow ls d p.1 p.2))
              hs (overwriteAgg_eq_self hagg)]
      rw [hstep,
          snapshot_foldl_noop ls d ps snaps c (u + 1)
            (fun q hq => h q (List.mem_cons_of_mem p hq))]
      simp only [List.length_cons]
      have harith : u + 1 + ps.length = u + (ps.length + 1) := by omega
      rw [harith]

/-! ## Facts about `floatOrNone` and rational `min?` / `max?` -/

theorem floatOrNone_eq_none_iff {x : Option ℚ} :
    floatOrNone x = none ↔ x = none ∨ x = some 0 := by
  cases x with
  | none => simp [floatOrNone]
  | some v =>
      by_cases hv : v = 0 <;> simp [floatOrNone, hv]

theorem floatOrNone_eq_some_iff {x : Option ℚ} {v : ℚ} :
    floatOrNone x = some v ↔ x = some v ∧ v ≠ 0 := by
  cases x with
  | none => simp [floatOrNone]
  | some w =>
      by_cases hw : w = 0
      · subst hw
        simp only [floatOrNone, if_pos rfl]
        constructor
        · intro hfalse
          cases hfalse
        · rintro ⟨hv, hne⟩
          cases hv
          exact absurd rfl hne
      · simp only [floatOrNone, if_neg hw, Option.some.injEq]
        constructor
        · rintro rfl
          exact ⟨rfl, hw⟩
        · rintro ⟨hv, _⟩
          cases hv
          rfl

theorem ratMin?_eq_some_iff {l : List ℚ} {a : ℚ} :
    l.min? = some a ↔ a ∈ l ∧ ∀ b ∈ l, a ≤ b := by
  have anti : Std.Antisymm ((· : ℚ) ≤ ·) := ⟨fun h h' => le_antisymm h h'⟩
  exact List.min?_eq_some_iff (fun a => le_refl a) (fun a b => min_choice a b)
    (fun _ _ _ => le_min_iff)

theorem ratMax?_eq_some_iff {l : List ℚ} {a : ℚ} :
    l.max? = some a ↔ a ∈ l ∧ ∀ b ∈ l, b ≤ a := by
  have anti : Std.Antisymm ((· : ℚ) ≤ ·) := ⟨fun h h' => le_antisymm h h'⟩
  exact List.max?_eq_some_iff (fun a => le_refl a) (fun a b => max_choice a b)
    (fun _ _ _ => max_le_iff)

/-! ## C1: snapshot generation is idempotent -/

/-- The conclusion of claim C1 at a given record store, snapshot store and
date: the second of two immediately successive runs creates nothing and
leaves the snapshot store byte-identical, and the store keeps at most one
row per `(date, make, model)`. -/
def SnapshotIdempotentOK (ls : List Listing) (snaps : List DailySnapshot)
    (d : Int) : Prop :=
  (create_daily_snapshot ls (create_daily_snapshot ls snaps d).1 d).2.snapshots_created = 0 ∧
  (create_daily_snapshot ls (create_daily_snapshot ls snaps d).1 d).1 =
    (create_daily_snapshot ls snaps d).1 ∧
  uniqKeys (create_daily_snapshot ls snaps d).1

/-- C1.  Snapshot generation is idempotent: on any snapshot store satisfying
the `unique_daily_snapshot` constraint, running `create_daily_snapshot` twice
for the same date over an unchanged record store yields
`snapshots_created = 0` on the second run, stores exactly the same rows as
the first run, and leaves at most one row per `(date, make, model)`. -/
theorem create_daily_snapshot_idempotent (ls : List Listing)
    (snaps : List DailySnapshot) (d : Int) (h : uniqKeys snaps) :
    SnapshotIdempotentOK ls snaps d := by
  have hnd : (listingPairs ls).Nodup := nodup_dedupFirst _
  have hfirst :
      (create_daily_snapshot ls snaps d).1 =
        ((listingPairs ls).foldl (snapshotStep ls d) (snaps, 0, 0)).1 := rfl
  have hrows : ∀ p ∈ listingPairs ls,
      rowOK ls d (create_daily_snapshot ls snaps d).1 p := by
    intro p hp
    rw [hfirst]
    exact snapshot_foldl_rows ls d (listingPairs ls) (snaps, 0, 0)
      (fun _ => False) hnd (fun _ _ hf => hf) (fun _ hf => hf.elim) p (Or.inr hp)
  have hnoop := snapshot_foldl_noop ls d (listingPairs ls)
    (create_daily_snapshot ls snaps d).1 0 0 hrows
  refine ⟨?_, ?_, ?_⟩
  · show ((listingPairs ls).foldl (snapshotStep ls d)
      ((create_daily_snapshot ls snaps d).1, 0, 0)).2.1 = 0
    rw [hnoop]
  · show ((listingPairs ls).foldl (snapshotStep ls d)
      ((create_daily_snapshot ls snaps d).1, 0, 0)).1 =
      (create_daily_snapshot ls snaps d).1
    rw [hnoop]
  · rw [hfirst]
    exact snapshot_foldl_uniq ls d (listingPairs ls) (snaps, 0, 0) h

/-- Witness for C1 at a concrete store. -/
theorem create_daily_snapshot_idempotent_witness :
    SnapshotIdempotentOK
      [{ id := 1, url := "a", platform := some "craigslist",
         make := some "Honda", model := some "Civic", price := some 10000 },
       { id := 2, url := "b", make := some "Honda", model := some "Civic" }]
      [{ date := 5, make := "Ford", model := "F150", avg_price := some 1 }] 5 :=
  create_daily_snapshot_idempotent _ _ 5 (by decide)

/-! ## C2: price aggregates per group -/

/-- The conclusion of (amended) claim C2 for one `(make, model)` group:
`listing_count` counts every listing of the group (null-priced ones
included); the price statistics are computed over the non-null prices and
are stored as NULL exactly when the group has no non-null price or the
computed aggregate equals zero (the implementation's truthiness test maps a
zero aggregate to NULL). -/
def PriceAggregatesOK (ls : List Listing) (snaps : List DailySnapshot)
    (d : Int) (mk md : String) : Prop :=
  ∃ s, (create_daily_snapshot ls snaps d).1.find? (snapKey d mk md) = some s ∧
    s.listing_count = (groupListings ls mk md).length ∧
    (s.avg_price = none ↔ (groupPrices ls mk md).sum = 0) ∧
    (∀ v, s.avg_price = some v →
      groupPrices ls mk md ≠ [] ∧
      v = (groupPrices ls mk md).sum / (groupPrices ls mk md).length) ∧
    (s.min_price = none ↔ groupPrices ls mk md = [] ∨
      (0 ∈ groupPrices ls mk md ∧ ∀ w ∈ groupPrices ls mk md, 0 ≤ w)) ∧
    (∀ v, s.min_price = some v → v ∈ groupPrices ls mk md ∧ v ≠ 0 ∧
      ∀ w ∈ groupPrices ls mk md, v ≤ w) ∧
    (s.max_price = none ↔ groupPrices ls mk md = [] ∨
      (0 ∈ groupPrices ls mk md ∧ ∀ w ∈ groupPrices ls mk md, w ≤ 0)) ∧
    (∀ v, s.max_price = some v → v ∈ groupPrices ls mk md ∧ v ≠ 0 ∧
      ∀ w ∈ groupPrices ls mk md, w ≤ v)

/-- C2 (amended).  For every `(make, model)` group of the record store, the
snapshot row stored for that group counts all its listings in
`listing_count`, computes `avg_price` / `min_price` / `max_price` over the
listings with non-null price, and stores a price statistic as NULL exactly
when the group has no non-null price or the aggregate's value is zero. -/
theorem create_daily_snapshot_price_aggregates (ls : List Listing)
    (snaps : List DailySnapshot) (d : Int) (mk md : String)
    (hp : (mk, md) ∈ listingPairs ls) :
    PriceAggregatesOK ls snaps d mk md := by
  have hnd : (listingPairs ls).Nodup := nodup_dedupFirst _
  have hrow : rowOK ls d (create_daily_snapshot ls snaps d).1 (mk, md) :=
    snapshot_foldl_rows ls d (listingPairs ls) (snaps, 0, 0)
      (fun _ => False) hnd (fun _ _ hf => hf) (fun _ hf => hf.elim)
      (mk, md) (Or.inr hp)
  obtain ⟨s, hs, hagg⟩ := hrow
  have havg : s.avg_price = floatOrNone (sqlAvg (groupPrices ls mk md)) := by
    simpa [aggOf, aggRow] using congrArg (fun t => t.1) hagg
  have hmin : s.min_price = floatOrNone (groupPrices ls mk md).min? := by
    simpa [aggOf, aggRow] using congrArg (fun t => t.2.1) hagg
  have hmax : s.max_price = floatOrNone (groupPrices ls mk md).max? := by
    simpa [aggOf, aggRow] using congrArg (fun t => t.2.2.1) hagg
  have hcount : s.listing_count = (groupListings ls mk md).length := by
    simpa [aggOf, aggRow] using congrArg (fun t => t.2.2.2.1) hagg
  refine ⟨s, hs, hcount, ?_, ?_, ?_, ?_, ?_, ?_⟩
  · rw [havg, floatOrNone_eq_none_iff]
    by_cases hps : groupPrices ls mk md = []
    · simp [sqlAvg, hps]
    · have hlen : ((groupPrices ls mk md).length : ℚ) ≠ 0 :=
        Nat.cast_ne_zero.2 (by simpa [List.length_eq_zero] using hps)
      simp only [sqlAvg, if_neg hps, Option.some.injEq]
      constructor
      · rintro (hfalse | hzero)
        · cases hfalse
        · rcases div_eq_zero_iff.1 hzero with hsum | hlen'
          · exact hsum
          · exact absurd hlen' hlen
      · intro hsum
        exact Or.inr (by rw [hsum, zero_div])
  · intro v hv
    rw [havg, floatOrNone_eq_some_iff] at hv
    obtain ⟨hsome, hne⟩ := hv
    by_cases hps : groupPrices ls mk md = []
    · simp [sqlAvg, hps] at hsome
    · simp only [sqlAvg, if_neg hps, Option.some.injEq] at hsome
      exact ⟨hps, hsome.symm⟩
  · rw [hmin, floatOrNone_eq_none_iff]
    constructor
    · rintro (hnone | hzero)
      · exact Or.inl (List.min?_eq_none_iff.1 hnone)
      · have hspec := ratMin?_eq_some_iff.1 hzero
        exact Or.inr ⟨hspec.1, hspec.2⟩
    · rintro (hempty | ⟨hmem, hall⟩)
      · exact Or.inl (by simp [hempty])
      · exact Or.inr (ratMin?_eq_some_iff.2 ⟨hmem, hall⟩)
  · intro v hv
    rw [hmin, floatOrNone_eq_some_iff] at hv
    obtain ⟨hsome, hne⟩ := hv
    have hspec := ratMin?_eq_some_iff.1 hsome
    exact ⟨hspec.1, hne, hspec.2⟩
  · rw [hmax, floatOrNone_eq_none_iff]
    constructor
    · rintro (hnone | hzero)
      · exact Or.inl (List.max?_eq_none_iff.1 hnone)
      · have hspec := ratMax?_eq_some_iff.1 hzero
        exact Or.inr ⟨hspec.1, hspec.2⟩
    · rintro (hempty | ⟨hmem, hall⟩)
      · exact Or.inl (by simp [hempty])
      · exact Or.inr (ratMax?_eq_some_iff.2 ⟨hmem, hall⟩)
  · intro v hv
    rw [hmax, floatOrNone_eq_some_iff] at hv
    obtain ⟨hsome, hne⟩ := hv
    have hspec := ratMax?_eq_some_iff.1 hsome
    exact ⟨hspec.1, hne, hspec.2⟩

/-- A one-listing group whose only price is `0` (a non-null price). -/
def zeroPriceListing : Listing :=
  { id := 1, url := "z", make := some "Honda", model := some "Civic",
    price := some 0 }

/-- Counterexample to C2 as stated: the group of `zeroPriceListing` has a
listing with a non-null price, yet the stored snapshot row has all three
price statistics NULL — "null exactly when no Listing in the group has a
price" fails on the zero-price group. -/
theorem create_daily_snapshot_zero_price_counterexample :
    ((create_daily_snapshot [zeroPriceListing] [] 0).1.find?
        (snapKey 0 "Honda" "Civic")).map
      (fun s => (s.listing_count, s.avg_price, s.min_price, s.max_price)) =
      some (1, none, none, none) ∧
    zeroPriceListing.price = some 0 ∧ zeroPriceListing.price ≠ none := by
  refine ⟨by decide, rfl, by decide⟩

/-- The four-listing group of the claim's example: prices
10000, 20000, NULL, 30000. -/
def exampleGroup : List Listing :=
  [{ id := 1, url := "a", make := some "Honda", model := some "Civic",
     price := some 10000 },
   { id := 2, url := "b", make := some "Honda", model := some "Civic",
     price := some 20000 },
   { id := 3, url := "c", make := some "Honda", model := some "Civic",
     price := none },
   { id := 4, url := "d", make := some "Honda", model := some "Civic",
     price := some 30000 }]

/-- Witness for C2 on the claim's example group, together with the concrete
aggregate values the run stores: `avg_price = 20000`, `min_price = 10000`,
`max_price = 30000`, `listing_count = 4`. -/
theorem create_daily_snapshot_price_aggregates_witness :
    (((create_daily_snapshot exampleGroup [] 7).1.find?
          (snapKey 7 "Honda" "Civic")).map
        (fun s => (s.listing_count, s.avg_price, s.min_price, s.max_price)) =
      some (4, some 20000, some 10000, some 30000)) ∧
    PriceAggregatesOK exampleGroup [] 7 "Honda" "Civic" :=
  ⟨by decide,
   create_daily_snapshot_price_aggregates exampleGroup [] 7 "Honda" "Civic"
     (by decide)⟩

/-! ## Upsert: shared lemmas -/

theorem updateFirst_append_of_none {p : α → Bool} {f : α → α} {l₁ l₂ : List α}
    (h : l₁.find? p = none) :
    updateFirst p f (l₁ ++ l₂) = l₁ ++ updateFirst p f l₂ := by
  induction l₁ with
  | nil => rfl
  | cons a l ih =>
      have ha : ¬ p a = true := by
        intro hpa
        rw [List.find?_cons_of_pos _ hpa] at h
        cases h
      rw [List.find?_cons_of_neg _ ha] at h
      simp only [List.cons_append, updateFirst, if_neg ha, List.append_eq]
      rw [ih h]

/-- Every field of the row except `price`, `title`, the engagement counters,
`last_seen` and `scraped_at` survives the update branch unchanged, and
`last_seen = scraped_at = now` afterwards. -/
theorem applyUpdate_frame (l : Listing) (rec : RawRecord) (now : Int) :
    (applyUpdate l rec now).id = l.id ∧
    (applyUpdate l rec now).url = l.url ∧
    (applyUpdate l rec now).platform = l.platform ∧
    (applyUpdate l rec now).make = l.make ∧
    (applyUpdate l rec now).model = l.model ∧
    (applyUpdate l rec now).year = l.year ∧
    (applyUpdate l rec now).mileage = l.mileage ∧
    (applyUpdate l rec now).first_seen = l.first_seen ∧
    (applyUpdate l rec now).last_seen = now ∧
    (applyUpdate l rec now).scraped_at = now := by
  unfold applyUpdate
  cases rec.price <;> cases rec.views <;> cases rec.likes <;>
    cases rec.comments <;> cases rec.title <;> dsimp only <;>
    (try split_ifs) <;>
    exact ⟨rfl, rfl, rfl, rfl, rfl, rfl, rfl, rfl, rfl, rfl⟩

theorem listingUrlEq_applyUpdate (u : String) (x : Listing) (rec : RawRecord)
    (now : Int) : listingUrlEq u (applyUpdate x rec now) = listingUrlEq u x := by
  unfold listingUrlEq
  rw [(applyUpdate_frame x rec now).2.1]

/-- The update branch of `upsert_listing`, as an equation. -/
theorem upsert_update_eq {db : List Listing} {rec : RawRecord} {now : Int}
    {freshId : Nat} {race : Option Listing} {u : String} {l : Listing}
    (hurl : rec.url = some u) (hne : u ≠ "")
    (hfind : db.find? (listingUrlEq u) = some l) :
    upsert_listing db rec now freshId race =
      Except.ok (updateFirst (listingUrlEq u) (fun x => applyUpdate x rec now) db,
                 applyUpdate l rec now) := by
  unfold upsert_listing
  rw [hurl]
  simp only [if_neg hne, hfind]

/-- The insert branch of `upsert_listing`, as an equation. -/
theorem upsert_insert_eq {db : List Listing} {rec : RawRecord} {now : Int}
    {freshId : Nat} {u : String}
    (hurl : rec.url = some u) (hne : u ≠ "")
    (hnone : db.find? (listingUrlEq u) = none) :
    upsert_listing db rec now freshId none =
      Except.ok (db ++ [newListing rec u now freshId],
                 newListing rec u now freshId) := by
  unfold upsert_listing
  rw [hurl]
  simp only [if_neg hne, hnone]

/-- The race-recovery branch when the concurrent winner holds the same URL:
the handler finds the winner's committed row and refreshes only its
`last_seen`. -/
theorem upsert_race_ok {db : List Listing} {rec : RawRecord} {now : Int}
    {freshId : Nat} {winner : Listing} {u : String}
    (hurl : rec.url = some u) (hne : u ≠ "")
    (hnone : db.find? (listingUrlEq u) = none) (hw : winner.url = u) :
    upsert_listing db rec now freshId (some winner) =
      Except.ok (db ++ [{ winner with last_seen := now }],
                 { winner with last_seen := now }) := by
  have hpw : listingUrlEq u winner = true := by
    simp [listingUrlEq, hw]
  have hfindr : (db ++ [winner]).find? (listingUrlEq u) = some winner := by
    rw [List.find?_append, hnone]
    simp [List.find?_cons_of_pos _ hpw]
  unfold upsert_listing
  rw [hurl]
  simp only [if_neg hne, hnone, hfindr]
  rw [updateFirst_append_of_none hnone]
  simp [updateFirst, hpw]

/-- The race-recovery branch when the integrity violation does not stem from
a row with our URL: the re-query finds nothing and the error propagates. -/
theorem upsert_race_error {db : List Listing} {rec : RawRecord} {now : Int}
    {freshId : Nat} {winner : Listing} {u : String}
    (hurl : rec.url = some u) (hne : u ≠ "")
    (hnone : db.find? (listingUrlEq u) = none) (hw : winner.url ≠ u) :
    upsert_listing db rec now freshId (some winner) =
      Except.error "IntegrityError" := by
  have hpw : listingUrlEq u winner = false := by
    simp [listingUrlEq, hw]
  have hfindr : (db ++ [winner]).find? (listingUrlEq u) = none := by
    rw [List.find?_append, hnone, Option.none_or,
        List.find?_cons_of_neg _ (by simp [hpw]), List.find?_nil]
  unfold upsert_listing
  rw [hurl]
  simp only [if_neg hne, hnone, hfindr]

/-! ## C3: uniqueness violation on insert is retried as an update -/

/-- The conclusion of (amended) claim C3: a uniqueness violation on insert is
treated as "listing already exists" and retried exactly once as an update —
but the retry refreshes only `last_seen = now()` (it does not touch
`scraped_at`, `price`, `title` or the engagement counters) and returns the
concurrently committed Listing; when no row with the URL exists after the
violation, the error propagates to the caller. -/
def RaceRecoveryOK (db : List Listing) (rec : RawRecord) (now : Int)
    (freshId : Nat) (winner : Listing) (u : String) : Prop :=
  (winner.url = u →
    upsert_listing db rec now freshId (some winner) =
      Except.ok (db ++ [{ winner with last_seen := now }],
                 { winner with last_seen := now })) ∧
  (winner.url ≠ u →
    upsert_listing db rec now freshId (some winner) =
      Except.error "IntegrityError")

/-- C3 (amended).  When the insert of a new URL hits a uniqueness violation,
`upsert_listing` retries exactly once as an update that refreshes only
`last_seen`, returning the existing Listing; if no Listing with the URL can
be found after the violation, the error propagates. -/
theorem upsert_listing_race_recovery (db : List Listing) (rec : RawRecord)
    (now : Int) (freshId : Nat) (winner : Listing) (u : String)
    (hurl : rec.url = some u) (hne : u ≠ "")
    (hnone : db.find? (listingUrlEq u) = none) :
    RaceRecoveryOK db rec now freshId winner u :=
  ⟨fun hw => upsert_race_ok hurl hne hnone hw,
   fun hw => upsert_race_error hurl hne hnone hw⟩

/-- The row the concurrent writer committed first. -/
def raceWinner : Listing :=
  { id := 1, url := "u", price := some 5, title := some "old",
    views := some 3, scraped_at := 1, first_seen := 1, last_seen := 1 }

/-- The record of the losing writer, carrying a different price, title and
view count. -/
def raceRecord : RawRecord :=
  { url := some "u", price := some (some 10), title := some (some "new"),
    views := some (some 9) }

/-- Counterexample to C3 as stated: after the race-recovery retry at
`now = 100`, the returned Listing still has the winner's price 5, title
"old", views 3 and `scraped_at = 1` although the record provided price 10,
title "new", views 9, and the claim demands `scraped_at = now` and the
provided values overwritten. -/
theorem upsert_listing_race_counterexample :
    upsert_listing [] raceRecord 100 2 (some raceWinner) =
      Except.ok ([{ raceWinner with last_seen := 100 }],
                 { raceWinner with last_seen := 100 }) ∧
    ({ raceWinner with last_seen := 100 } : Listing).price = some 5 ∧
    raceRecord.price = some (some 10) ∧
    ({ raceWinner with last_seen := 100 } : Listing).title = some "old" ∧
    raceRecord.title = some (some "new") ∧
    ({ raceWinner with last_seen := 100 } : Listing).views = some 3 ∧
    raceRecord.views = some (some 9) ∧
    ({ raceWinner with last_seen := 100 } : Listing).scraped_at = 1 ∧
    (1 : Int) ≠ 100 := by
  refine ⟨by decide, by decide, by decide, by decide, by decide, by decide,
    by decide, by decide, by decide⟩

/-- Witness for C3 (amended) at a concrete store. -/
theorem upsert_listing_race_recovery_witness :
    RaceRecoveryOK [] raceRecord 100 2 raceWinner "u" :=
  upsert_listing_race_recovery [] raceRecord 100 2 raceWinner "u"
    (by decide) (by decide) (by decide)

/-! ## C5: first_seen immutability -/

theorem runUpserts_keeps_first_seen (u : String) :
    ∀ (cs : List UpsertCall) (db : List Listing) (l : Listing),
      db.find? (listingUrlEq u) = some l →
      (∀ x ∈ cs, x.record.url = some u) →
      ∃ l', (runUpserts db cs).find? (listingUrlEq u) = some l' ∧
        l'.first_seen = l.first_seen
  | [], db, l, hfind, _ => ⟨l, hfind, rfl⟩
  | c :: cs, db, l, hfind, hurl => by
      have hcu : c.record.url = some u := hurl c (List.mem_cons_self c cs)
      by_cases hne : u = ""
      · subst hne
        have hupd : upsert_listing db c.record c.now c.freshId none =
            Except.error "ValueError: URL is required for upsert_listing" := by
          unfold upsert_listing
          rw [hcu]
          simp
        rw [runUpserts, hupd]
        exact runUpserts_keeps_first_seen "" cs db l hfind
          (fun x hx => hurl x (List.mem_cons_of_mem c hx))
      · have hupd := @upsert_update_eq db c.record c.now c.freshId none u l
          hcu hne hfind
        rw [runUpserts, hupd]
        have hfind' : (updateFirst (listingUrlEq u)
            (fun x => applyUpdate x c.record c.now) db).find? (listingUrlEq u) =
            some (applyUpdate l c.record c.now) :=
          find?_updateFirst_self hfind
            (by rw [listingUrlEq_applyUpdate]; exact List.find?_some hfind)
        obtain ⟨l', hl', hfs⟩ := runUpserts_keeps_first_seen u cs _ _ hfind'
          (fun x hx => hurl x (List.mem_cons_of_mem c hx))
        refine ⟨l', hl', ?_⟩
        rw [hfs, (applyUpdate_frame l c.record c.now).2.2.2.2.2.2.2.1]

/-- The conclusion of claim C5: after the first call creates the row, any
number of further upserts for the same URL leaves `first_seen` at the
timestamp of the first call; and the race-recovery update returns the
concurrently committed row with its `first_seen` untouched. -/
def FirstSeenImmutableOK (db : List Listing) (u : String) (c : UpsertCall)
    (cs : List UpsertCall) : Prop :=
  (∃ l, (runUpserts db (c :: cs)).find? (listingUrlEq u) = some l ∧
    l.first_seen = c.now) ∧
  (∀ (db2 : List Listing) (rec2 : RawRecord) (now2 : Int) (fid2 : Nat)
      (winner : Listing),
    rec2.url = some u → db2.find? (listingUrlEq u) = none → winner.url = u →
    ∃ db' l, upsert_listing db2 rec2 now2 fid2 (some winner) =
        Except.ok (db', l) ∧ l.first_seen = winner.first_seen)

/-- C5.  First-seen immutability: starting from a store with no row for URL
`u`, a non-empty sequence of upserts for `u` leaves the row's `first_seen`
equal to the timestamp of the first call, however many calls follow; no
update path — the race-recovery update included — ever mutates
`first_seen`. -/
theorem upsert_listing_first_seen_immutable (db : List Listing) (u : String)
    (c : UpsertCall) (cs : List UpsertCall)
    (hne : u ≠ "") (hdb : db.find? (listingUrlEq u) = none)
    (hc : c.record.url = some u) (hcs : ∀ x ∈ cs, x.record.url = some u) :
    FirstSeenImmutableOK db u c cs := by
  constructor
  · have hins := @upsert_insert_eq db c.record c.now c.freshId u hc hne hdb
    have hfind : (db ++ [newListing c.record u c.now c.freshId]).find?
        (listingUrlEq u) = some (newListing c.record u c.now c.freshId) := by
      rw [List.find?_append, hdb, Option.none_or,
          List.find?_cons_of_pos _ (by simp [listingUrlEq, newListing])]
    show ∃ l, (runUpserts db (c :: cs)).find? (listingUrlEq u) = some l ∧
      l.first_seen = c.now
    rw [runUpserts, hins]
    obtain ⟨l', hl', hfs⟩ := runUpserts_keeps_first_seen u cs _ _ hfind hcs
    exact ⟨l', hl', by rw [hfs]; rfl⟩
  · intro db2 rec2 now2 fid2 winner hurl2 hnone2 hw
    refine ⟨db2 ++ [{ winner with last_seen := now2 }],
            { winner with last_seen := now2 },
            upsert_race_ok hurl2 hne hnone2 hw, rfl⟩

/-- Witness for C5: three calls spanning time for the same URL; the stored
row keeps `first_seen = 50`, the timestamp of the first call. -/
theorem upsert_listing_first_seen_immutable_witness :
    FirstSeenImmutableOK [] "u"
      { record := { url := some "u", price := some (some 5) },
        now := 50, freshId := 1 }
      [{ record := { url := some "u", price := some (some 6) },
         now := 60, freshId := 2 },
       { record := { url := some "u", price := some (some 7),
                     title := some (some "t") },
         now := 70, freshId := 3 }] :=
  upsert_listing_first_seen_immutable [] "u" _ _
    (by decide) (by decide) (by decide) (by decide)

/-! ## C9: frame effect of the update path -/

/-- The conclusion of claim C9: when the URL already has a row, the upsert
succeeds, the row's `platform`, `make`, `model`, `year` and `mileage` (and
also `id`, `url` and `first_seen`) are returned unchanged — even when the
incoming record carries new values for them — and the store changes in no
row other than the updated one. -/
def UpdateFrameOK (db : List Listing) (rec : RawRecord) (now : Int)
    (freshId : Nat) (race : Option Listing) (u : String) (l : Listing) : Prop :=
  ∃ db' ret, upsert_listing db rec now freshId race = Except.ok (db', ret) ∧
    ret.platform = l.platform ∧ ret.make = l.make ∧ ret.model = l.model ∧
    ret.year = l.year ∧ ret.mileage = l.mileage ∧
    ret.id = l.id ∧ ret.url = l.url ∧ ret.first_seen = l.first_seen ∧
    ret.last_seen = now ∧ ret.scraped_at = now ∧
    db'.find? (listingUrlEq u) = some ret ∧
    ∀ x ∈ db', x ∈ db ∨ x = ret

/-- C9.  Frame effect of `upsert_listing` on an existing listing: the update
path never modifies `platform`, `make`, `model`, `year` or `mileage` (nor
`id`, `url`, `first_seen`), whatever the incoming record provides; only the
found row is replaced, every other row is returned verbatim. -/
theorem upsert_listing_update_frame (db : List Listing) (rec : RawRecord)
    (now : Int) (freshId : Nat) (race : Option Listing) (u : String)
    (l : Listing) (hurl : rec.url = some u) (hne : u ≠ "")
    (hfind : db.find? (listingUrlEq u) = some l) :
    UpdateFrameOK db rec now freshId race u l := by
  have hupd := @upsert_update_eq db rec now freshId race u l hurl hne hfind
  refine ⟨_, _, hupd, ?_⟩
  obtain ⟨h1, h2, h3, h4, h5, h6, h7, h8, h9, h10⟩ :=
    applyUpdate_frame l rec now
  refine ⟨h3, h4, h5, h6, h7, h1, h2, h8, h9, h10, ?_, ?_⟩
  · exact find?_updateFirst_self hfind
      (by rw [listingUrlEq_applyUpdate]; exact List.find?_some hfind)
  · intro x hx
    rcases mem_updateFirst hx with hxdb | ⟨y, hyfind, hxy⟩
    · exact Or.inl hxdb
    · rw [hfind] at hyfind
      cases hyfind
      exact Or.inr hxy

/-- Witness for C9: the record provides new `make`, `model`, `year` and
`mileage` values, yet the updated row keeps the old ones. -/
theorem upsert_listing_update_frame_witness :
    UpdateFrameOK
      [{ id := 1, url := "u", platform := some "craigslist",
         make := some "Honda", model := some "Civic", year := some 2015,
         mileage := some 50000, price := some 5, first_seen := 10,
         last_seen := 10, scraped_at := 10 }]
      { url := some "u", price := some (some 6), make := some "Toyota",
        model := some "Camry", year := some 2020, mileage := some 1,
        title := some (some "fresh") }
      99 7 none "u"
      { id := 1, url := "u", platform := some "craigslist",
        make := some "Honda", model := some "Civic", year := some 2015,
        mileage := some 50000, price := some 5, first_seen := 10,
        last_seen := 10, scraped_at := 10 } :=
  upsert_listing_update_frame _ _ 99 7 none "u" _
    (by decide) (by decide) (by decide)

/-! ## Trending: membership characterization -/

/-- The comparison-snapshot lookup predicate of `get_trending_cars`. -/
def oldSnapPred (ts : DailySnapshot) (comparison_date : Int)
    (s : DailySnapshot) : Bool :=
  s.make == ts.make && s.model == ts.model && s.date == comparison_date &&
    s.avg_price.isSome

theorem mem_trendingAll {snaps : List DailySnapshot} {today : Int}
    {days : Nat} {e : TrendingEntry} (h : e ∈ trendingAll snaps today days) :
    ∃ ts os op np, ts ∈ snaps ∧ os ∈ snaps ∧
      ts.date = today ∧ os.date = today - days ∧
      os.make = ts.make ∧ os.model = ts.model ∧
      ts.avg_price = some np ∧ os.avg_price = some op ∧
      op ≠ 0 ∧ np ≠ 0 ∧ e = trendingEntry ts op np := by
  unfold trendingAll at h
  rcases List.mem_filterMap.1 h with ⟨ts, hts, hf⟩
  rcases List.mem_filter.1 hts with ⟨htsmem, htscond⟩
  rw [Bool.and_eq_true, beq_iff_eq] at htscond
  cases hfind : snaps.find? (fun s => s.make == ts.make && s.model == ts.model &&
      s.date == (today - days : Int) && s.avg_price.isSome) with
  | none =>
      rw [hfind] at hf
      cases hf
  | some os =>
      rw [hfind] at hf
      dsimp only at hf
      have hosmem := List.mem_of_find?_eq_some hfind
      have hospred := List.find?_some hfind
      simp only [Bool.and_eq_true, beq_iff_eq] at hospred
      obtain ⟨⟨⟨hmk, hmd⟩, hdt⟩, _⟩ := hospred
      cases hop : os.avg_price with
      | none => rw [hop] at hf; cases hf
      | some op =>
          cases hnp : ts.avg_price with
          | none => rw [hop, hnp] at hf; cases hf
          | some np =>
              rw [hop, hnp] at hf
              dsimp only at hf
              split at hf
              · cases hf
              · cases hf
                rename_i hcond
                simp only [Bool.or_eq_true, decide_eq_true_eq, not_or] at hcond
                exact ⟨ts, os, op, np, htsmem, hosmem, htscond.1, hdt,
                  hmk, hmd, hnp, hop, hcond.1, hcond.2, rfl⟩

/-! ## C10: the change_pct division is always guarded -/

/-- C10.  Every entry returned by `get_trending_cars` stems from a past
snapshot with a non-null, non-zero `avg_price`: the pair is filtered out
before `change_pct` is computed otherwise, so the division
`change / old_price` never has a zero divisor. -/
theorem get_trending_cars_change_pct_guarded (snaps : List DailySnapshot)
    (today : Int) (days limit : Nat) (e : TrendingEntry)
    (he : e ∈ get_trending_cars snaps today days limit) :
    e.old_price ≠ 0 ∧
    (∃ os ∈ snaps, os.date = today - days ∧ os.avg_price = some e.old_price) ∧
    e.change_pct = pyRound2 ((e.new_price - e.old_price) / e.old_price * 100) := by
  have hall : e ∈ trendingAll snaps today days := sortTake_subset he
  obtain ⟨ts, os, op, np, _, hosmem, _, hosdate, _, _, _, hop, hopne, _, rfl⟩ :=
    mem_trendingAll hall
  exact ⟨hopne, ⟨os, hosmem, hosdate, hop⟩, rfl⟩

/-- Today's snapshot of the pair (A, B): average 150. -/
def wTodaySnap : DailySnapshot :=
  { date := 10, make := "A", model := "B", avg_price := some 150,
    listing_count := 3 }

/-- The snapshot of (A, B) dated exactly seven days earlier: average 100. -/
def wPastSnap : DailySnapshot :=
  { date := 3, make := "A", model := "B", avg_price := some 100 }

/-- Witness for C10 at a concrete store whose trending output is
non-empty. -/
theorem get_trending_cars_change_pct_guarded_witness :
    (trendingEntry wTodaySnap 100 150).old_price ≠ 0 ∧
    (∃ os ∈ [wTodaySnap, wPastSnap], os.date = 10 - (7 : Nat) ∧
      os.avg_price = some (trendingEntry wTodaySnap 100 150).old_price) ∧
    (trendingEntry wTodaySnap 100 150).change_pct =
      pyRound2 (((trendingEntry wTodaySnap 100 150).new_price -
          (trendingEntry wTodaySnap 100 150).old_price) /
        (trendingEntry wTodaySnap 100 150).old_price * 100) :=
  get_trending_cars_change_pct_guarded [wTodaySnap, wPastSnap] 10 7 10
    (trendingEntry wTodaySnap 100 150) (by decide)

/-! ## C4: the trending query -/

theorem trendingAll_mem_of {snaps : List DailySnapshot} {today : Int}
    {days : Nat} {ts os : DailySnapshot} {op np : ℚ}
    (hu : uniqKeys snaps)
    (hts : ts ∈ snaps) (hos : os ∈ snaps)
    (htsd : ts.date = today) (hosd : os.date = today - days)
    (hmk : os.make = ts.make) (hmd : os.model = ts.model)
    (hnp : ts.avg_price = some np) (hop : os.avg_price = some op)
    (hop0 : op ≠ 0) (hnp0 : np ≠ 0) :
    trendingEntry ts op np ∈ trendingAll snaps today days := by
  unfold trendingAll
  refine List.mem_filterMap.2 ⟨ts, ?_, ?_⟩
  · exact List.mem_filter.2 ⟨hts, by simp [htsd, hnp]⟩
  · cases hfind : snaps.find? (fun s => s.make == ts.make &&
        s.model == ts.model && s.date == (today - days : Int) &&
        s.avg_price.isSome) with
    | none =>
        exact absurd (by simp [hmk, hmd, hosd, hop])
          (List.find?_eq_none.1 hfind os hos)
    | some os' =>
        have hpred' := List.find?_some hfind
        have hmem' := List.mem_of_find?_eq_some hfind
        simp only [Bool.and_eq_true, beq_iff_eq] at hpred'
        obtain ⟨⟨⟨hmk', hmd'⟩, hdt'⟩, _⟩ := hpred'
        have hkey : keyOf os' = keyOf os := by
          simp [keyOf, hmk', hmd', hdt', hmk, hmd, hosd]
        have heq : os' = os := List.inj_on_of_nodup_map hu hmem' hos hkey
        subst heq
        dsimp only
        rw [hop, hnp]
        dsimp only
        rw [if_neg (by simp [hop0, hnp0])]

/-- The conclusion of (amended) claim C4: the output is at most `limit`
long, sorted by descending absolute (rounded) change, every entry stems from
a pair with an exact-date pair of snapshots whose averages are non-null and
non-zero — carrying `change = round2(new − old)`,
`change_pct = round2(change / old × 100)` and direction `"up"` for a
positive unrounded change, `"down"` otherwise — and every qualifying pair
either appears or is crowded out by `limit` entries of at least its absolute
change. -/
def TrendingOutputOK (snaps : List DailySnapshot) (today : Int)
    (days limit : Nat) : Prop :=
  (get_trending_cars snaps today days limit).length ≤ limit ∧
  List.Sorted trendingDescBy (get_trending_cars snaps today days limit) ∧
  (∀ e ∈ get_trending_cars snaps today days limit,
    ∃ ts os op np, ts ∈ snaps ∧ os ∈ snaps ∧
      ts.date = today ∧ os.date = today - days ∧
      os.make = ts.make ∧ os.model = ts.model ∧
      ts.avg_price = some np ∧ os.avg_price = some op ∧
      op ≠ 0 ∧ np ≠ 0 ∧ e = trendingEntry ts op np ∧
      e.change = pyRound2 (np - op) ∧
      e.change_pct = pyRound2 ((np - op) / op * 100) ∧
      e.direction = (if 0 < np - op then "up" else "down")) ∧
  (∀ ts os op np, ts ∈ snaps → os ∈ snaps →
    ts.date = today → os.date = today - days →
    os.make = ts.make → os.model = ts.model →
    ts.avg_price = some np → os.avg_price = some op → op ≠ 0 → np ≠ 0 →
    (trendingEntry ts op np ∈ get_trending_cars snaps today days limit ∨
      ((get_trending_cars snaps today days limit).length = limit ∧
        ∀ x ∈ get_trending_cars snaps today days limit,
          |pyRound2 (np - op)| ≤ |x.change|)))

/-- C4 (amended).  On a snapshot store satisfying the uniqueness constraint,
`get_trending_cars` returns exactly the pairs with snapshots dated today and
exactly `today − days`, both with non-null *and non-zero* `avg_price`,
carrying the rounded change fields, sorted descending by absolute change and
truncated to `limit`. -/
theorem get_trending_cars_output (snaps : List DailySnapshot) (today : Int)
    (days limit : Nat) (hu : uniqKeys snaps) :
    TrendingOutputOK snaps today days limit := by
  refine ⟨sortTake_length _ _ _, sortTake_sorted _ _ _, ?_, ?_⟩
  · intro e he
    obtain ⟨ts, os, op, np, h1, h2, h3, h4, h5, h6, h7, h8, h9, h10, rfl⟩ :=
      mem_trendingAll (sortTake_subset he)
    exact ⟨ts, os, op, np, h1, h2, h3, h4, h5, h6, h7, h8, h9, h10, rfl,
      rfl, rfl, rfl⟩
  · intro ts os op np hts hos htsd hosd hmk hmd hnp hop hop0 hnp0
    have hmem := trendingAll_mem_of hu hts hos htsd hosd hmk hmd hnp hop
      hop0 hnp0
    rcases sortTake_complete (r := trendingDescBy) (n := limit) hmem with
      hin | ⟨hlen, hall⟩
    · exact Or.inl hin
    · exact Or.inr ⟨hlen, fun x hx => hall x hx⟩

/-- A today snapshot whose average is zero (a non-null value). -/
def zeroAvgTodaySnap : DailySnapshot :=
  { date := 10, make := "A", model := "B", avg_price := some 0,
    listing_count := 1 }

/-- The exact-date comparison snapshot of the same pair, average 100. -/
def pastSnap100 : DailySnapshot :=
  { date := 3, make := "A", model := "B", avg_price := some 100 }

/-- Counterexample to C4 as stated: the pair (A, B) has a snapshot dated
today and one dated exactly `today − days`, both with *non-null*
`avg_price`, so the claim requires it in the output — but the zero average
is filtered out by the truthiness test and the result is empty. -/
theorem get_trending_cars_zero_counterexample :
    get_trending_cars [zeroAvgTodaySnap, pastSnap100] 10 7 10 = [] ∧
    zeroAvgTodaySnap.avg_price ≠ none ∧ pastSnap100.avg_price ≠ none ∧
    zeroAvgTodaySnap.date = 10 ∧ pastSnap100.date = 10 - (7 : Nat) ∧
    pastSnap100.make = zeroAvgTodaySnap.make ∧
    pastSnap100.model = zeroAvgTodaySnap.model := by
  refine ⟨by decide, by decide, by decide, by decide, by decide, by decide,
    by decide⟩

/-- Witness for C4 (amended) at a concrete store. -/
theorem get_trending_cars_output_witness :
    TrendingOutputOK [wTodaySnap, wPastSnap] 10 7 10 :=
  get_trending_cars_output [wTodaySnap, wPastSnap] 10 7 10 (by decide)

/-! ## C8: the market overview -/

theorem get_market_overview_of_ne {snaps : List DailySnapshot} {today : Int}
    {days : Nat} (hf : ¬ snapsInWindow snaps today days = []) :
    get_market_overview snaps today days =
      { total_unique_cars := (overviewPairs (snapsInWindow snaps today days)).length
        avg_market_price :=
          match (if overviewPrices (snapsInWindow snaps today days) = [] then none
                 else some ((overviewPrices (snapsInWindow snaps today days)).sum /
                   ((overviewPrices (snapsInWindow snaps today days)).length : ℚ))) with
          | none => none
          | some v => if v = 0 then none else some (pyRound2 v)
        total_snapshots := (snapsInWindow snaps today days).length
        start_date := today - days
        end_date := today
        most_listed :=
          (List.insertionSort mostListedDescBy
            ((overviewPairs (snapsInWindow snaps today days)).map
              (mostListedEntryFor (snapsInWindow snaps today days)))).take 10 } := by
  unfold get_market_overview
  rw [if_neg hf]

theorem get_market_overview_of_empty {snaps : List DailySnapshot}
    {today : Int} {days : Nat} (hf : snapsInWindow snaps today days = []) :
    get_market_overview snaps today days =
      { total_unique_cars := 0, avg_market_price := none, total_snapshots := 0,
        start_date := today - days, end_date := today, most_listed := [] } := by
  unfold get_market_overview
  rw [if_pos hf]

/-- The conclusion of (amended) claim C8 over the snapshots in the window
`[today − days, today]`: the row count, the date range, the distinct-pair
count, the mean over the non-null *and non-zero* averages (itself rounded to
two decimals and mapped to NULL when the mean is zero), and a `most_listed`
list that is the top ten pairs by average daily listing count — a pair's
total `listing_count` divided by its number of distinct snapshot dates,
rounded to one decimal — sorted descending. -/
def MarketOverviewOK (snaps : List DailySnapshot) (today : Int)
    (days : Nat) : Prop :=
  (get_market_overview snaps today days).total_snapshots =
    (snapsInWindow snaps today days).length ∧
  (get_market_overview snaps today days).start_date = today - days ∧
  (get_market_overview snaps today days).end_date = today ∧
  (get_market_overview snaps today days).total_unique_cars =
    ((snapsInWindow snaps today days).map pairOf).dedup.length ∧
  ((get_market_overview snaps today days).avg_market_price = none ↔
    (overviewPrices (snapsInWindow snaps today days)).sum = 0) ∧
  (∀ v, (get_market_overview snaps today days).avg_market_price = some v →
    overviewPrices (snapsInWindow snaps today days) ≠ [] ∧
    v = pyRound2 ((overviewPrices (snapsInWindow snaps today days)).sum /
      (overviewPrices (snapsInWindow snaps today days)).length)) ∧
  (get_market_overview snaps today days).most_listed.length ≤ 10 ∧
  List.Sorted mostListedDescBy
    (get_market_overview snaps today days).most_listed ∧
  (∀ e ∈ (get_market_overview snaps today days).most_listed,
    (e.make, e.model) ∈ (snapsInWindow snaps today days).map pairOf ∧
    e = mostListedEntryFor (snapsInWindow snaps today days)
      (e.make, e.model)) ∧
  (∀ p ∈ (snapsInWindow snaps today days).map pairOf,
    mostListedEntryFor (snapsInWindow snaps today days) p ∈
      (get_market_overview snaps today days).most_listed ∨
    ((get_market_overview snaps today days).most_listed.length = 10 ∧
      ∀ y ∈ (get_market_overview snaps today days).most_listed,
        (mostListedEntryFor (snapsInWindow snaps today days) p).avg_listings ≤
          y.avg_listings))

/-- C8 (amended).  `get_market_overview` reports, over the snapshots dated
in `[today − days, today]`: the total row count, the distinct-pair count,
the rounded mean of the non-null non-zero averages (NULL when that mean is
zero or no such average exists), and the ten pairs with the highest average
daily listing count. -/
theorem get_market_overview_output (snaps : List DailySnapshot)
    (today : Int) (days : Nat) : MarketOverviewOK snaps today days := by
  by_cases hf : snapsInWindow snaps today days = []
  · rw [MarketOverviewOK, get_market_overview_of_empty hf, hf]
    refine ⟨rfl, rfl, rfl, rfl, ?_, ?_, ?_, ?_, ?_, ?_⟩
    · simp [overviewPrices]
    · intro v hv
      cases hv
    · simp
    · exact List.sorted_nil
    · intro e he
      cases he
    · intro p hp
      simp at hp
  · rw [MarketOverviewOK, get_market_overview_of_ne hf]
    have hlen : ((overviewPrices (snapsInWindow snaps today days)).length : ℚ) ≠ 0 →
        True := fun _ => trivial
    refine ⟨rfl, rfl, rfl, ?_, ?_, ?_, ?_, ?_, ?_, ?_⟩
    · exact length_dedupFirst _
    · by_cases hp : overviewPrices (snapsInWindow snaps today days) = []
      · simp only [if_pos hp, hp]
        simp
      · have hlen : ((overviewPrices (snapsInWindow snaps today days)).length : ℚ) ≠ 0 :=
          Nat.cast_ne_zero.2 (by simpa [List.length_eq_zero] using hp)
        simp only [if_neg hp]
        constructor
        · intro hnone
          by_cases hz : (overviewPrices (snapsInWindow snaps today days)).sum /
              ((overviewPrices (snapsInWindow snaps today days)).length : ℚ) = 0
          · rcases div_eq_zero_iff.1 hz with hs | hl
            · exact hs
            · exact absurd hl hlen
          · rw [if_neg hz] at hnone
            cases hnone
        · intro hsum
          rw [if_pos (by rw [hsum, zero_div])]
    · intro v hv
      by_cases hp : overviewPrices (snapsInWindow snaps today days) = []
      · rw [if_pos hp] at hv
        cases hv
      · rw [if_neg hp] at hv
        dsimp only at hv
        by_cases hz : (overviewPrices (snapsInWindow snaps today days)).sum /
            ((overviewPrices (snapsInWindow snaps today days)).length : ℚ) = 0
        · rw [if_pos hz] at hv
          cases hv
        · rw [if_neg hz] at hv
          cases hv
          exact ⟨hp, rfl⟩
    · exact sortTake_length _ _ _
    · exact sortTake_sorted _ _ _
    · intro e he
      have hmap := sortTake_subset he
      rcases List.mem_map.1 hmap with ⟨p, hp, rfl⟩
      cases p with
      | mk a b =>
          refine ⟨?_, rfl⟩
          exact mem_dedupFirst.1 hp
    · intro p hp
      have hup : p ∈ overviewPairs (snapsInWindow snaps today days) :=
        mem_dedupFirst.2 hp
      have hmem : mostListedEntryFor (snapsInWindow snaps today days) p ∈
          (overviewPairs (snapsInWindow snaps today days)).map
            (mostListedEntryFor (snapsInWindow snaps today days)) :=
        List.mem_map_of_mem _ hup
      rcases sortTake_complete (r := mostListedDescBy) (n := 10) hmem with
        hin | ⟨hl10, hall⟩
      · exact Or.inl hin
      · exact Or.inr ⟨hl10, fun y hy => hall y hy⟩

/-- A snapshot in the window whose average is zero (non-null). -/
def zeroAvgSnap : DailySnapshot :=
  { date := 5, make := "A", model := "B", avg_price := some 0 }

/-- A second snapshot in the window, average 10. -/
def tenAvgSnap : DailySnapshot :=
  { date := 5, make := "C", model := "D", avg_price := some 10 }

/-- Counterexample to C8 as stated: both snapshots carry a non-null
`avg_price` (0 and 10), so the claimed mean over non-null averages is 5 —
but the implementation's truthiness filter drops the zero average and
reports 10. -/
theorem get_market_overview_zero_counterexample :
    (get_market_overview [zeroAvgSnap, tenAvgSnap] 5 2).avg_market_price =
      some 10 ∧
    zeroAvgSnap.avg_price = some 0 ∧ zeroAvgSnap.avg_price ≠ none ∧
    (([zeroAvgSnap, tenAvgSnap].filterMap (fun s => s.avg_price)).sum /
      (([zeroAvgSnap, tenAvgSnap].filterMap (fun s => s.avg_price)).length : ℚ))
      = 5 ∧
    (5 : ℚ) ≠ 10 := by
  refine ⟨by decide, by decide, by decide, by decide, by decide⟩

/-- Witness for C8 (amended) at a concrete store. -/
theorem get_market_overview_output_witness :
    MarketOverviewOK [wTodaySnap, wPastSnap] 10 7 :=
  get_market_overview_output [wTodaySnap, wPastSnap] 10 7

/-! ## C6: the listings retention boundary -/

theorem cleanup_old_listings_run (db : List Listing) (now : Int) (rd : Nat) :
    cleanup_old_listings db now rd none =
      (Except.ok
        (if db.countP (fun l => decide (l.last_seen < now - rd * 86400)) = 0 then
          { deleted_count := 0, retention_days := rd }
         else
          { deleted_count :=
              db.countP (fun l => decide (l.last_seen < now - rd * 86400))
            remaining_count := some
              (db.filter (fun l => !decide (l.last_seen < now - rd * 86400))).length
            retention_days := rd }),
       if db.countP (fun l => decide (l.last_seen < now - rd * 86400)) = 0 then db
       else db.filter (fun l => !decide (l.last_seen < now - rd * 86400))) := by
  by_cases h0 : db.countP (fun l => decide (l.last_seen < now - rd * 86400)) = 0
  · simp [cleanup_old_listings, h0]
  · simp [cleanup_old_listings, h0]

/-- The conclusion of claim C6: the call succeeds, reports the number of
rows with `last_seen` strictly before `now − retentionDays` as deleted,
retains exactly the other rows, and in particular deletes a listing exactly
one second older than the cutoff while retaining one exactly one second
younger. -/
def CleanupListingsOK (db : List Listing) (now : Int) (rd : Nat) : Prop :=
  (∃ res, (cleanup_old_listings db now rd none).1 = Except.ok res ∧
    res.deleted_count =
      db.countP (fun l => decide (l.last_seen < now - rd * 86400))) ∧
  (∀ l ∈ db, l.last_seen < now - rd * 86400 →
    l ∉ (cleanup_old_listings db now rd none).2) ∧
  (∀ l ∈ db, now - rd * 86400 ≤ l.last_seen →
    l ∈ (cleanup_old_listings db now rd none).2) ∧
  (∀ l ∈ (cleanup_old_listings db now rd none).2, l ∈ db) ∧
  (∀ l ∈ db, l.last_seen = now - rd * 86400 - 1 →
    l ∉ (cleanup_old_listings db now rd none).2) ∧
  (∀ l ∈ db, l.last_seen = now - rd * 86400 + 1 →
    l ∈ (cleanup_old_listings db now rd none).2)

/-- C6.  `cleanup_old_listings` hard-deletes exactly the listings whose
`last_seen` is strictly earlier than `now − retentionDays` (in seconds) and
retains all others; the two one-second boundary cases fall on the deleted
and retained side respectively. -/
theorem cleanup_old_listings_boundary (db : List Listing) (now : Int)
    (rd : Nat) : CleanupListingsOK db now rd := by
  rw [CleanupListingsOK, cleanup_old_listings_run]
  by_cases h0 : db.countP (fun l => decide (l.last_seen < now - rd * 86400)) = 0
  · rw [if_pos h0, if_pos h0]
    have hnone : ∀ l ∈ db, ¬ l.last_seen < now - rd * 86400 := by
      intro l hl
      have := List.countP_eq_zero.1 h0 l hl
      simpa using this
    refine ⟨⟨_, rfl, by rw [h0]⟩, ?_, ?_, ?_, ?_, ?_⟩
    · intro l hl hlt
      exact absurd hlt (hnone l hl)
    · intro l hl _
      exact hl
    · intro l hl
      exact hl
    · intro l hl heq
      exact absurd (by omega : l.last_seen < now - rd * 86400) (hnone l hl)
    · intro l hl _
      exact hl
  · rw [if_neg h0, if_neg h0]
    refine ⟨⟨_, rfl, rfl⟩, ?_, ?_, ?_, ?_, ?_⟩
    · intro l hl hlt hmem
      rcases List.mem_filter.1 hmem with ⟨_, hcond⟩
      simp only [Bool.not_eq_eq_eq_not, Bool.not_true, decide_eq_false_iff_not] at hcond
      exact hcond hlt
    · intro l hl hge
      exact List.mem_filter.2 ⟨hl, by simpa using Int.not_lt.2 hge⟩
    · intro l hl
      exact (List.mem_filter.1 hl).1
    · intro l hl heq hmem
      rcases List.mem_filter.1 hmem with ⟨_, hcond⟩
      simp only [Bool.not_eq_eq_eq_not, Bool.not_true, decide_eq_false_iff_not] at hcond
      exact hcond (by omega)
    · intro l hl heq
      exact List.mem_filter.2 ⟨hl, by simpa using Int.not_lt.2 (by omega)⟩

/-- A listing one second older than the 90-day cutoff. -/
def boundaryOldListing : Listing :=
  { id := 1, url := "old", last_seen := 100 * 86400 - 90 * 86400 - 1 }

/-- A listing one second younger than the 90-day cutoff. -/
def boundaryNewListing : Listing :=
  { id := 2, url := "new", last_seen := 100 * 86400 - 90 * 86400 + 1 }

/-- Witness for C6 on the two boundary listings at `now = day 100`,
`retentionDays = 90`. -/
theorem cleanup_old_listings_boundary_witness :
    CleanupListingsOK [boundaryOldListing, boundaryNewListing]
      (100 * 86400) 90 :=
  cleanup_old_listings_boundary [boundaryOldListing, boundaryNewListing]
    (100 * 86400) 90

/-! ## C7: cleanup is all-or-nothing per call -/

/-- The conclusion of claim C7 for both cleanup operations: whatever store
step a failure is injected at (the count, the delete or the commit), the
committed table after the call is the initial one; when rows are doomed the
injected failure is propagated as an error; without injected failure the
call succeeds. -/
def CleanupAtomicOK (db : List Listing) (snaps : List DailySnapshot)
    (now : Int) (rdl rds : Nat) : Prop :=
  (∀ fp : DbStep, (cleanup_old_listings db now rdl (some fp)).2 = db) ∧
  (∃ msg, (cleanup_old_listings db now rdl (some DbStep.countQ)).1 =
    Except.error msg) ∧
  (db.countP (fun l => decide (l.last_seen < now - rdl * 86400)) ≠ 0 →
    ∀ fp : DbStep, ∃ msg,
      (cleanup_old_listings db now rdl (some fp)).1 = Except.error msg) ∧
  (∃ res, (cleanup_old_listings db now rdl none).1 = Except.ok res) ∧
  (∀ fp : DbStep, (cleanup_old_snapshots snaps now rds (some fp)).2 = snaps) ∧
  (∃ msg, (cleanup_old_snapshots snaps now rds (some DbStep.countQ)).1 =
    Except.error msg) ∧
  (snaps.countP
      (fun s => decide (s.date < Int.fdiv (now - rds * 86400) 86400)) ≠ 0 →
    ∀ fp : DbStep, ∃ msg,
      (cleanup_old_snapshots snaps now rds (some fp)).1 = Except.error msg) ∧
  (∃ res, (cleanup_old_snapshots snaps now rds none).1 = Except.ok res)

/-- C7.  Both cleanup operations are all-or-nothing per call: a store
failure at any step before or at the commit leaves the committed table
unchanged and propagates the error; only the failure-free run commits the
deletion. -/
theorem cleanup_all_or_nothing (db : List Listing)
    (snaps : List DailySnapshot) (now : Int) (rdl rds : Nat) :
    CleanupAtomicOK db snaps now rdl rds := by
  refine ⟨?_, ?_, ?_, ?_, ?_, ?_, ?_, ?_⟩
  · intro fp
    cases fp <;>
      by_cases h0 : db.countP
        (fun l => decide (l.last_seen < now - rdl * 86400)) = 0 <;>
      simp [cleanup_old_listings, h0]
  · exact ⟨"PersistenceError: count failed", by simp [cleanup_old_listings]⟩
  · intro h0 fp
    cases fp with
    | countQ =>
        exact ⟨"PersistenceError: count failed",
          by simp [cleanup_old_listings, h0]⟩
    | deleteQ =>
        exact ⟨"PersistenceError: delete failed",
          by simp [cleanup_old_listings, h0]⟩
    | commitQ =>
        exact ⟨"PersistenceError: commit failed",
          by simp [cleanup_old_listings, h0]⟩
  · by_cases h0 : db.countP
      (fun l => decide (l.last_seen < now - rdl * 86400)) = 0
    · exact ⟨{ deleted_count := 0, retention_days := rdl },
        by simp [cleanup_old_listings, h0]⟩
    · exact ⟨{ deleted_count :=
                 db.countP (fun l => decide (l.last_seen < now - rdl * 86400))
               remaining_count := some
                 (db.filter
                   (fun l => !decide (l.last_seen < now - rdl * 86400))).length
               retention_days := rdl },
        by simp [cleanup_old_listings, h0]⟩
  · intro fp
    cases fp <;>
      by_cases h0 : snaps.countP
        (fun s => decide (s.date < Int.fdiv (now - rds * 86400) 86400)) = 0 <;>
      simp [cleanup_old_snapshots, h0]
  · exact ⟨"PersistenceError: count failed", by simp [cleanup_old_snapshots]⟩
  · intro h0 fp
    cases fp with
    | countQ =>
        exact ⟨"PersistenceError: count failed",
          by simp [cleanup_old_snapshots, h0]⟩
    | deleteQ =>
        exact ⟨"PersistenceError: delete failed",
          by simp [cleanup_old_snapshots, h0]⟩
    | commitQ =>
        exact ⟨"PersistenceError: commit failed",
          by simp [cleanup_old_snapshots, h0]⟩
  · by_cases h0 : snaps.countP
      (fun s => decide (s.date < Int.fdiv (now - rds * 86400) 86400)) = 0
    · exact ⟨{ deleted_count := 0, retention_days := rds },
        by simp [cleanup_old_snapshots, h0]⟩
    · exact ⟨{ deleted_count := snaps.countP
                 (fun s => decide (s.date < Int.fdiv (now - rds * 86400) 86400))
               remaining_count := some
                 (snaps.filter (fun s =>
                   !decide (s.date < Int.fdiv (now - rds * 86400) 86400))).length
               retention_days := rds },
        by simp [cleanup_old_snapshots, h0]⟩

/-- Witness for C7 at a concrete pair of stores with doomed rows. -/
theorem cleanup_all_or_nothing_witness :
    CleanupAtomicOK [boundaryOldListing, boundaryNewListing]
      [{ date := 0, make := "A", model := "B" }] (400 * 86400) 90 180 :=
  cleanup_all_or_nothing [boundaryOldListing, boundaryNewListing]
    [{ date := 0, make := "A", model := "B" }] (400 * 86400) 90 180

end CarsTrends
